import Mathlib

/-!
Verification of the `denoise` dataset-download pipeline against its
natural-language specification.

The development shallowly embeds the parts of the repository the claims
are about:

* `src/download_dataset/face_cropping.py` — the `FaceCropper` class:
  keyframe selection (`np.linspace` with an integer cast), face-center
  interpolation (`interpolate_coords` over `np.interp`), bounding-box
  helpers (`get_center`, `get_height_width`), the pad-and-slice crop
  (`pad_crop` over `np.pad` and basic slicing), and the driver
  `cut_face_from_video`.
* `src/download_dataset/video_download.py` — `download_partial_video_from_youtube`
  with its existence guard and the two ffmpeg invocations, modelled as a
  state function over a filesystem map together with the outcomes of the
  external network and subprocess calls.
* `src/download_dataset/celery_tasks.py` — the `download_video` and
  `crop_video` task bodies, including which exception classes the former
  catches.
* `src/download_dataset.py` — the producer's priority constant.

Machine floats of the Python/numpy code are modelled with exact rational
arithmetic; Python `int()` is truncation toward zero, `//` is floor
division, and slice endpoints follow Python's resolution rule (negative
indices count from the end, then both ends clamp into `[0, len]`).
-/

namespace Denoise

/-! ### Python and numpy numeric primitives -/

/-- Python `int(q)` applied to a real-valued quantity: truncation toward
zero. Also the effect of `np.ndarray.astype` with an integer dtype, as in
`np.linspace(..., dtype=np.int)`. -/
def pyInt (q : ℚ) : ℤ := if 0 ≤ q then ⌊q⌋ else ⌈q⌉

/-- Python floor division `//` of real-valued quantities followed by
`int()`, as in `get_center`. -/
def pyFloorDiv (a b : ℚ) : ℤ := ⌊a / b⌋

/-- `np.linspace(0, stop, num)` cast to integers (`dtype=np.int`, a
truncation toward zero), in exact rational arithmetic. For `num ≤ 1`
numpy returns `[start] = [0]` (or `[]`); otherwise entry `i` is
`i * stop / (num - 1)` with the endpoint landing exactly on `stop`. -/
def linspace_int (stop : ℤ) (num : ℕ) : List ℤ :=
  if num ≤ 1 then List.replicate num 0
  else (List.range num).map fun (i : ℕ) => pyInt ((i : ℚ) * (stop : ℚ) / ((num : ℚ) - 1))

/-- `np.interp(t, [0, t_end], [v0, v1])` at one query point `t`. -/
def np_interp (v0 v1 t_end t : ℤ) : ℚ :=
  (v0 : ℚ) + ((v1 : ℚ) - (v0 : ℚ)) * (t : ℚ) / (t_end : ℚ)

/-! ### Bounding boxes (face_cropping.py lines 213-260) -/

/-- An MTCNN bounding box `(left, lower, right, upper)`; the detector
returns machine floats, modelled as rationals. -/
structure Box where
  left : ℚ
  lower : ℚ
  right : ℚ
  upper : ℚ
deriving DecidableEq, Repr

/-- `FaceCropper.get_center`: `(int((lower+upper)//2), int((left+right)//2))`,
row first. -/
def get_center (b : Box) : ℤ × ℤ :=
  (pyFloorDiv (b.lower + b.upper) 2, pyFloorDiv (b.left + b.right) 2)

/-- `FaceCropper.get_height_width`: `(int(upper - lower), int(right - left))`. -/
def get_height_width (b : Box) : ℤ × ℤ :=
  (pyInt (b.upper - b.lower), pyInt (b.right - b.left))

/-! ### Keyframe selection and interpolation (face_cropping.py lines 83-175) -/

/-- The sampled detection frame indices of `cut_face_from_video` lines 83-85:
`np.linspace(0, frame_count - 1, min(num_detect_points, frame_count), dtype=np.int)`. -/
def face_detect_frame_idxs (frame_count num_detect_points : ℕ) : List ℤ :=
  linspace_int ((frame_count : ℤ) - 1) (min num_detect_points frame_count)

/-- `FaceCropper.interpolate_coords`: `np.interp` of each coordinate over
`np.arange(0, t_end)` (so `t = 0, …, t_end - 1`; empty when `t_end ≤ 0`),
each value truncated by `int()`, returned `(row, column)`. -/
def interpolate_coords (coords_start coords_end : ℤ × ℤ) (t_end : ℤ) : List (ℤ × ℤ) :=
  (List.range t_end.toNat).map fun (t : ℕ) =>
    (pyInt (np_interp coords_start.1 coords_end.1 t_end (t : ℤ)),
     pyInt (np_interp coords_start.2 coords_end.2 t_end (t : ℤ)))

/-- One detection result per sampled frame: `None` or the list of boxes,
as `MTCNN.detect` returns it. -/
abbrev DetectEntry := Option (List Box)

/-- The test of lines 91-94: the loop returns `1` as soon as an entry is
`None` or holds a number of boxes other than one. -/
def ambiguous (b : DetectEntry) : Bool :=
  match b with
  | none => true
  | some l => l.length != 1

/-- The video passes the detection check when no sampled frame is ambiguous. -/
def accept (boxes : List DetectEntry) : Bool :=
  boxes.all fun b => !ambiguous b

/-- `b[0]` for an entry known to hold exactly one box (lines 109-110, 121);
the default is never reached on accepted inputs. -/
def box0 (b : DetectEntry) : Box := (b.getD []).headD ⟨0, 0, 0, 0⟩

/-- Python `zip(l[:-1], l[1:])`: the consecutive pairs of a list. -/
def consec_pairs {α : Type} (l : List α) : List (α × α) := l.dropLast.zip l.tail

/-- The interpolated center track of `cut_face_from_video` lines 98-118: for
each consecutive pair of sampled frames, extend by the interpolation of the
two face centers over `interp_end_idx - interp_start_idx` steps. -/
def center_track (boxes : List DetectEntry) (idxs : List ℤ) : List (ℤ × ℤ) :=
  ((consec_pairs boxes).zip (consec_pairs idxs)).flatMap fun p =>
    interpolate_coords (get_center (box0 p.1.1)) (get_center (box0 p.1.2)) (p.2.2 - p.2.1)

/-! ### Arrays, padding and slicing (face_cropping.py lines 177-211) -/

/-- A rank-3 numpy array (rows, columns, channels) with its pixel values. -/
structure Arr3 where
  d0 : ℕ
  d1 : ℕ
  d2 : ℕ
  px : ℕ → ℕ → ℕ → ℤ

/-- Resolution of one Python slice endpoint on an axis of length `len`: a
negative index counts from the end, then both ends clamp into `[0, len]`. -/
def py_slice_bound (len : ℕ) (i : ℤ) : ℕ :=
  if i < 0 then (i + len).toNat else min i.toNat len

/-- The basic slice `a[r0:r1, c0:c1, :]`. -/
def np_slice (a : Arr3) (r0 r1 c0 c1 : ℤ) : Arr3 :=
  { d0 := py_slice_bound a.d0 r1 - py_slice_bound a.d0 r0
    d1 := py_slice_bound a.d1 c1 - py_slice_bound a.d1 c0
    d2 := a.d2
    px := fun r c ch => a.px (py_slice_bound a.d0 r0 + r) (py_slice_bound a.d1 c0 + c) ch }

/-- `np.pad(a, ((p0, p0), (p1, p1), (0, 0)), "constant", constant_values=0)`. -/
def np_pad (a : Arr3) (p0 p1 : ℕ) : Arr3 :=
  { d0 := a.d0 + 2 * p0
    d1 := a.d1 + 2 * p1
    d2 := a.d2
    px := fun r c ch =>
      if p0 ≤ r ∧ r < p0 + a.d0 ∧ p1 ≤ c ∧ c < p1 + a.d1 then
        a.px (r - p0) (c - p1) ch
      else 0 }

/-- `FaceCropper.pad_crop`: zero-pad by `(lower - upper, right - left)` on the
two spatial axes, then slice `[height+upper : height+lower, width+left : width+right, :]`.
`np.pad` raises on a negative pad width, modelled as `none`. -/
def pad_crop (frame : Arr3) (upper lower left right : ℤ) : Option Arr3 :=
  if lower - upper < 0 ∨ right - left < 0 then none
  else
    some (np_slice (np_pad frame (lower - upper).toNat (right - left).toNat)
      ((lower - upper) + upper) ((lower - upper) + lower)
      ((right - left) + left) ((right - left) + right))

/-! ### The crop driver (face_cropping.py lines 51-145) -/

/-- The loaded video: `skvideo.io.vread` yields one
`frame_count × height × width × 3` array. -/
structure Video where
  frame_count : ℕ
  height : ℕ
  width : ℕ
  px : ℕ → ℕ → ℕ → ℕ → ℤ

/-- Frame `f` of the video as a rank-3 array. -/
def Video.frame (v : Video) (f : ℕ) : Arr3 :=
  { d0 := v.height, d1 := v.width, d2 := 3, px := v.px f }

/-- The array written by `skvideo.io.vwrite` on success. -/
structure WrittenVideo where
  frame_count : ℕ
  height : ℕ
  width : ℕ
  px : ℕ → ℕ → ℕ → ℕ → ℤ

/-- What one call of `cut_face_from_video` produces: the return code, the
written cropped video when there is one, and the `(height, width)` the loop
of lines 129-139 used at each of its iterations. -/
structure CropResult where
  return_code : ℕ
  written : Option WrittenVideo
  sizes : List (ℤ × ℤ)

/-- `FaceCropper.cut_face_from_video`, parametrized by the detector's output
`boxes` for the sampled frames (the call of line 88). On rejection (lines
91-94) the code returns `1` having written nothing. Otherwise it builds the
center track, freezes `(height, width)` from `boxes[0][0]` (line 121), zero-
initializes `len(videodata)` output frames (line 122), and the loop over
`zip(videodata, center_coords_interp)` crops one frame per track entry;
output frames beyond the track keep their zero initialization. -/
def cut_face_from_video (v : Video) (num_detect_points : ℕ)
    (boxes : List DetectEntry) : CropResult :=
  let idxs := face_detect_frame_idxs v.frame_count num_detect_points
  if accept boxes then
    let track := center_track boxes idxs
    let hw := get_height_width (box0 (boxes.headD none))
    { return_code := 0
      written := some
        { frame_count := v.frame_count
          height := hw.1.toNat
          width := hw.2.toNat
          px := fun f r c ch =>
            match track[f]? with
            | some center =>
              (match pad_crop (v.frame f)
                  (center.1 - Int.fdiv hw.1 2)
                  (center.1 - Int.fdiv hw.1 2 + hw.1)
                  (center.2 - Int.fdiv hw.2 2)
                  (center.2 - Int.fdiv hw.2 2 + hw.2) with
               | some a => a.px r c ch
               | none => 0)
            | none => 0 }
      sizes := (List.range (min v.frame_count track.length)).map fun _ => hw }
  else { return_code := 1, written := none, sizes := [] }

/-! ### Filesystem model and the crop task (celery_tasks.py lines 13-28) -/

/-- The filesystem as a map from path to file content. -/
def FS := String → Option String

def fs_empty : FS := fun _ => none

def fs_set (fs : FS) (p v : String) : FS := fun q => if q = p then some v else fs q

/-- `os.remove`. -/
def fs_remove (fs : FS) (p : String) : FS := fun q => if q = p then none else fs q

/-- `os.rename src dst`. -/
def fs_rename (fs : FS) (src dst : String) : FS :=
  fun q => if q = dst then fs src else if q = src then none else fs q

/-- `os.path.join` of a directory and a file name. -/
def path_join (d f : String) : String := d ++ "/" ++ f

/-- `Path(p).name`: the last path component. -/
def file_name (p : String) : String := (p.splitOn "/").getLastD p

/-- The `crop_video` task body, given the result of its
`cut_face_from_video` call: on return code `0` it removes the downloaded
video and renames the audio file next to the cropped video; on any other
return code it touches nothing. -/
def crop_video (res : CropResult) (video_file audio_file cropped_dir : String)
    (fs : FS) : FS :=
  if res.return_code == 0 then
    fs_rename (fs_remove fs video_file) audio_file
      (path_join cropped_dir (file_name audio_file))
  else fs

/-! ### The fetcher (video_download.py lines 50-99) -/

/-- The Python exception classes that can cross the
`download_partial_video_from_youtube` boundary, plus `DownloadError`
(caught inside `get_video_audio_urls`, listed because `download_video`
names it in an except clause). `typeMismatch` is the `TypeError` raised by
unpacking the `None` that `get_video_audio_urls` returns when no suitable
stream pair exists. -/
inductive PyExc
  | downloadError
  | fileExists
  | fileNotFound
  | timeoutExpired
  | typeMismatch
deriving DecidableEq, Repr

/-- Outcome of one `subprocess.run` ffmpeg invocation under `timeout=10`. -/
inductive FfmpegOutcome
  | ok
  | fail
  | timeout
deriving DecidableEq, Repr

/-- The external world of one fetch: what `get_video_audio_urls` resolves
(`none` models both a `DownloadError` inside it and a missing
`requested_formats` pair), how each ffmpeg call ends, and the bytes ffmpeg
writes on success. -/
structure Net where
  url_info : Option (String × String)
  ffmpeg_video : FfmpegOutcome
  ffmpeg_audio : FfmpegOutcome
  video_bytes : String
  audio_bytes : String

/-- A record of which external commands ran, in order. -/
inductive Action
  | ffmpeg_video_cmd
  | ffmpeg_audio_cmd
deriving DecidableEq, Repr

/-- `download_partial_video_from_youtube`: the two existence guards of lines
74-77 run before anything else; then the URL resolution, then the video and
audio ffmpeg extractions in order, each failure raising (`FileNotFoundError`
on a nonzero exit, `subprocess.TimeoutExpired` on timeout). A successful
video extraction leaves the video file on disk even when the audio
extraction then fails. -/
def download_partial_video_from_youtube (target_dir file_base_name : String)
    (net : Net) (fs : FS) : Except PyExc (String × String) × FS × List Action :=
  let file_video := path_join target_dir (file_base_name ++ ".mp4")
  let file_audio := path_join target_dir (file_base_name ++ ".aac")
  if (fs file_video).isSome then (Except.error PyExc.fileExists, fs, [])
  else if (fs file_audio).isSome then (Except.error PyExc.fileExists, fs, [])
  else
    match net.url_info with
    | none => (Except.error PyExc.typeMismatch, fs, [])
    | some _ =>
      match net.ffmpeg_video with
      | FfmpegOutcome.timeout =>
        (Except.error PyExc.timeoutExpired, fs, [Action.ffmpeg_video_cmd])
      | FfmpegOutcome.fail =>
        (Except.error PyExc.fileNotFound, fs, [Action.ffmpeg_video_cmd])
      | FfmpegOutcome.ok =>
        let fs1 := fs_set fs file_video net.video_bytes
        match net.ffmpeg_audio with
        | FfmpegOutcome.timeout =>
          (Except.error PyExc.timeoutExpired, fs1,
           [Action.ffmpeg_video_cmd, Action.ffmpeg_audio_cmd])
        | FfmpegOutcome.fail =>
          (Except.error PyExc.fileNotFound, fs1,
           [Action.ffmpeg_video_cmd, Action.ffmpeg_audio_cmd])
        | FfmpegOutcome.ok =>
          (Except.ok (file_video, file_audio), fs_set fs1 file_audio net.audio_bytes,
           [Action.ffmpeg_video_cmd, Action.ffmpeg_audio_cmd])

/-! ### The fetch task (celery_tasks.py lines 31-66, download_dataset.py line 44) -/

/-- A `crop_video.apply_async` call with its arguments and priority. -/
structure CropTask where
  video_file : String
  audio_file : String
  cropped_dir : String
  priority : ℕ
deriving DecidableEq, Repr

/-- How one `download_video` task body ends: the crop task it enqueued, if
any, and the exception escaping to the broker, if any. -/
structure TaskEnd where
  enqueued : Option CropTask
  uncaught : Option PyExc
deriving DecidableEq, Repr

/-- The except clauses of `download_video` lines 58-66 match
`youtube_dl.utils.DownloadError` and `FileExistsError`. The clauses naming
`UnexpectedURLInfo` and `FailedDownload` can match nothing: video_download.py
defines no such classes (the import of line 9 itself fails on them), and in
particular the `FileNotFoundError` and `subprocess.TimeoutExpired` the
fetcher actually raises match no clause. -/
def caught_at_task_boundary (e : PyExc) : Bool :=
  match e with
  | PyExc.downloadError => true
  | PyExc.fileExists => true
  | _ => false

/-- The `download_video` task body: run the fetcher; on success enqueue one
crop task at priority 2; on a caught exception log and swallow it; any other
exception escapes to the broker. -/
def download_video (download_dir cropped_dir youtube_id : String)
    (net : Net) (fs : FS) : TaskEnd × FS :=
  match download_partial_video_from_youtube download_dir youtube_id net fs with
  | (Except.ok (vf, af), fs1, _) =>
    ({ enqueued := some { video_file := vf, audio_file := af,
                          cropped_dir := cropped_dir, priority := 2 }
       uncaught := none }, fs1)
  | (Except.error e, fs1, _) =>
    if caught_at_task_boundary e then ({ enqueued := none, uncaught := none }, fs1)
    else ({ enqueued := none, uncaught := some e }, fs1)

/-- The priority of every fetch task the producer enqueues
(`download_video.apply_async(..., priority=1)` in download_dataset.py). -/
def fetch_task_priority : ℕ := 1

/-- The spec's fetch-error taxonomy, §7. -/
inductive FetchErrKind
  | alreadyExists
  | sourceUnavailable
  | extractionTimeout
  | extractionFailed
deriving DecidableEq, Repr

/-- The Python exception class video_download.py actually raises for each
error of the spec's taxonomy. -/
def taxonomy_exc : FetchErrKind → PyExc
  | FetchErrKind.alreadyExists => PyExc.fileExists
  | FetchErrKind.sourceUnavailable => PyExc.typeMismatch
  | FetchErrKind.extractionTimeout => PyExc.timeoutExpired
  | FetchErrKind.extractionFailed => PyExc.fileNotFound

/-! ### The selection rule as the spec words it -/

/-- Modelled from the spec: the keyframe selection of §4.2 step 3 read
literally, evenly spaced values ROUNDED to the nearest integer (the code
truncates instead). Kept only to compare with `face_detect_frame_idxs`. -/
def face_detect_frame_idxs_rounded (frame_count num_detect_points : ℕ) : List ℤ :=
  if min num_detect_points frame_count ≤ 1 then
    List.replicate (min num_detect_points frame_count) 0
  else
    (List.range (min num_detect_points frame_count)).map fun (i : ℕ) =>
      ⌊(i : ℚ) * ((frame_count : ℚ) - 1) / ((min num_detect_points frame_count : ℚ) - 1) + 1 / 2⌋

/-! ### Concrete instances used by witnesses and counterexamples -/

/-- A square detection box with center `(1, 1)` and size `2 × 2`. -/
def boxW : Box := ⟨0, 0, 2, 2⟩

/-- A tiny 3-frame, 4 × 4 video. -/
def videoW : Video := ⟨3, 4, 4, fun _ _ _ _ => 0⟩

/-- A network in which everything succeeds. -/
def netOk : Net := ⟨some ("vu", "au"), FfmpegOutcome.ok, FfmpegOutcome.ok, "VB", "AB"⟩

/-- A network in which the video ffmpeg extraction exits nonzero. -/
def netExtractionFail : Net :=
  ⟨some ("vu", "au"), FfmpegOutcome.fail, FfmpegOutcome.ok, "VB", "AB"⟩

/-- A 1 × 1 frame with 3 channels. -/
def frameW : Arr3 := ⟨1, 1, 3, fun _ _ _ => 0⟩

end Denoise

namespace Denoise

/-! ### Basic facts about the Python primitives -/

/-- Python int() is the floor on nonnegative values. -/
theorem pyInt_of_nonneg {q : ℚ} (h : 0 ≤ q) : pyInt q = ⌊q⌋ := if_pos h

/-- Python int() is the identity on integer values. -/
theorem pyInt_intCast (z : ℤ) : pyInt (z : ℚ) = z := by
  unfold pyInt
  split
  · exact Int.floor_intCast z
  · exact Int.ceil_intCast z

/-! ### The keyframe index list -/

theorem linspace_int_length (stop : ℤ) (num : ℕ) : (linspace_int stop num).length = num := by
  unfold linspace_int
  split <;> simp

theorem linspace_int_getD {stop : ℤ} (hstop : 0 ≤ stop) {num : ℕ} (h2 : 2 ≤ num)
    {i : ℕ} (hi : i < num) :
    (linspace_int stop num).getD i 0 = ⌊(i : ℚ) * (stop : ℚ) / ((num : ℚ) - 1)⌋ := by
  unfold linspace_int
  rw [if_neg (by omega)]
  rw [List.getD_eq_getElem _ _ (by simpa using hi)]
  rw [List.getElem_map, List.getElem_range]
  have hnum : (2 : ℚ) ≤ (num : ℚ) := by exact_mod_cast h2
  refine pyInt_of_nonneg (div_nonneg (mul_nonneg (by positivity) (by exact_mod_cast hstop)) ?_)
  linarith

theorem linspace_int_getD_zero {stop : ℤ} (hstop : 0 ≤ stop) {num : ℕ} (h2 : 2 ≤ num) :
    (linspace_int stop num).getD 0 0 = 0 := by
  rw [linspace_int_getD hstop h2 (by omega)]
  norm_num

theorem linspace_int_getD_last {stop : ℤ} (hstop : 0 ≤ stop) {num : ℕ} (h2 : 2 ≤ num) :
    (linspace_int stop num).getD (num - 1) 0 = stop := by
  rw [linspace_int_getD hstop h2 (by omega)]
  have hne : ((num : ℚ) - 1) ≠ 0 := by
    have : (2 : ℚ) ≤ (num : ℚ) := by exact_mod_cast h2
    linarith
  have hc : ((num - 1 : ℕ) : ℚ) = (num : ℚ) - 1 := by
    have : 1 ≤ num := by omega
    push_cast [this]
    ring
  rw [hc, mul_comm, mul_div_assoc, div_self hne, mul_one, Int.floor_intCast]

theorem linspace_int_strict {stop : ℤ} {num : ℕ} (h2 : 2 ≤ num) (hs : (num : ℤ) - 1 ≤ stop)
    {i : ℕ} (hi : i + 1 < num) :
    (linspace_int stop num).getD i 0 < (linspace_int stop num).getD (i + 1) 0 := by
  have hstop : 0 ≤ stop := by omega
  rw [linspace_int_getD hstop h2 (by omega), linspace_int_getD hstop h2 hi]
  have hd : (0 : ℚ) < (num : ℚ) - 1 := by
    have : (2 : ℚ) ≤ (num : ℚ) := by exact_mod_cast h2
    linarith
  have hs1 : (1 : ℚ) ≤ (stop : ℚ) / ((num : ℚ) - 1) := by
    rw [le_div_iff₀ hd]
    have h1 : ((num : ℚ) - 1) ≤ (stop : ℚ) := by exact_mod_cast hs
    linarith
  have key : (i : ℚ) * (stop : ℚ) / ((num : ℚ) - 1) + 1
      ≤ ((i : ℕ) + 1 : ℚ) * (stop : ℚ) / ((num : ℚ) - 1) := by
    rw [add_mul, one_mul, add_div]
    linarith
  calc ⌊(i : ℚ) * (stop : ℚ) / ((num : ℚ) - 1)⌋
      < ⌊(i : ℚ) * (stop : ℚ) / ((num : ℚ) - 1)⌋ + 1 := by omega
    _ = ⌊(i : ℚ) * (stop : ℚ) / ((num : ℚ) - 1) + 1⌋ := by rw [Int.floor_add_one]
    _ ≤ ⌊((i + 1 : ℕ) : ℚ) * (stop : ℚ) / ((num : ℚ) - 1)⌋ := by
        apply Int.floor_le_floor
        push_cast
        linarith

theorem linspace_int_pairwise {stop : ℤ} {num : ℕ} (h2 : 2 ≤ num)
    (hs : (num : ℤ) - 1 ≤ stop) :
    (linspace_int stop num).Pairwise (· < ·) := by
  rw [← List.chain'_iff_pairwise]
  rw [List.chain'_iff_get]
  intro i hi
  have hlen : (linspace_int stop num).length = num := linspace_int_length stop num
  have hi2 : i + 1 < num := by omega
  have hstep := linspace_int_strict h2 hs hi2
  rw [List.getD_eq_getElem _ 0 (by omega), List.getD_eq_getElem _ 0 (by omega)] at hstep
  simp only [List.get_eq_getElem]
  exact hstep

theorem face_idxs_length (n ndp : ℕ) :
    (face_detect_frame_idxs n ndp).length = min ndp n := by
  unfold face_detect_frame_idxs
  exact linspace_int_length _ _

theorem face_idxs_pairwise {n ndp : ℕ} (h2 : 2 ≤ min ndp n) :
    (face_detect_frame_idxs n ndp).Pairwise (· < ·) := by
  unfold face_detect_frame_idxs
  exact linspace_int_pairwise h2 (by omega)

theorem face_idxs_getD_zero {n ndp : ℕ} (h2 : 2 ≤ min ndp n) :
    (face_detect_frame_idxs n ndp).getD 0 0 = 0 := by
  unfold face_detect_frame_idxs
  exact linspace_int_getD_zero (by omega) h2

theorem face_idxs_getLastD {n ndp : ℕ} (h2 : 2 ≤ min ndp n) :
    (face_detect_frame_idxs n ndp).getLastD 0 = (n : ℤ) - 1 := by
  have hlen : (face_detect_frame_idxs n ndp).length = min ndp n := face_idxs_length n ndp
  have hlast : (face_detect_frame_idxs n ndp).getD (min ndp n - 1) 0 = (n : ℤ) - 1 := by
    unfold face_detect_frame_idxs
    exact linspace_int_getD_last (by omega) h2
  rw [List.getLastD_eq_getLast?, List.getLast?_eq_getElem?]
  rw [List.getD_eq_getElem?_getD] at hlast
  rw [hlen] at *
  exact hlast

/-! ### The interpolated center track -/

theorem consec_pairs_single {α : Type} (a : α) : consec_pairs [a] = [] := rfl

theorem consec_pairs_cons₂ {α : Type} (a b : α) (l : List α) :
    consec_pairs (a :: b :: l) = (a, b) :: consec_pairs (b :: l) := by
  unfold consec_pairs
  rw [List.dropLast_cons₂]
  rfl

theorem interpolate_coords_length (cs ce : ℤ × ℤ) (t : ℤ) :
    (interpolate_coords cs ce t).length = t.toNat := by
  unfold interpolate_coords
  rw [List.length_map, List.length_range]

theorem center_track_cons (b0 b1 : DetectEntry) (bs : List DetectEntry)
    (i0 i1 : ℤ) (l : List ℤ) :
    center_track (b0 :: b1 :: bs) (i0 :: i1 :: l) =
      interpolate_coords (get_center (box0 b0)) (get_center (box0 b1)) (i1 - i0)
        ++ center_track (b1 :: bs) (i1 :: l) := by
  unfold center_track
  rw [consec_pairs_cons₂, consec_pairs_cons₂, List.zip_cons_cons, List.flatMap_cons]

theorem center_track_single (b0 : DetectEntry) (i0 : ℤ) :
    center_track [b0] [i0] = [] := by
  unfold center_track
  rw [consec_pairs_single, consec_pairs_single]
  rfl

theorem pairwise_head_le_getLastD (a : ℤ) (l : List ℤ)
    (h : (a :: l).Pairwise (· ≤ ·)) : a ≤ (a :: l).getLastD 0 := by
  induction l generalizing a with
  | nil => simp
  | cons b l ih =>
    have hab : a ≤ b := (List.pairwise_cons.mp h).1 b (by simp)
    have hb := ih b (List.pairwise_cons.mp h).2
    rw [List.getLastD_cons, List.getLastD_cons]
    rw [List.getLastD_cons] at hb
    calc a ≤ b := hab
      _ ≤ _ := hb

theorem center_track_length_aux (bs : List DetectEntry) :
    ∀ (b0 : DetectEntry) (l : List ℤ) (a : ℤ),
      bs.length = l.length → (a :: l).Pairwise (· ≤ ·) →
      (center_track (b0 :: bs) (a :: l)).length = ((a :: l).getLastD 0 - a).toNat := by
  induction bs with
  | nil =>
    intro b0 l a hlen _
    cases l with
    | nil => rw [center_track_single]; simp
    | cons i1 l => simp at hlen
  | cons b1 bs ih =>
    intro b0 l a hlen hpw
    cases l with
    | nil => simp at hlen
    | cons i1 l =>
      rw [center_track_cons, List.length_append, interpolate_coords_length]
      have hpw1 : (i1 :: l).Pairwise (· ≤ ·) := (List.pairwise_cons.mp hpw).2
      rw [ih b1 l i1 (by simpa using hlen) hpw1]
      have h1 : a ≤ i1 := (List.pairwise_cons.mp hpw).1 i1 (by simp)
      have h2 : i1 ≤ (i1 :: l).getLastD 0 := pairwise_head_le_getLastD i1 l hpw1
      simp only [List.getLastD_cons] at h2 ⊢
      omega

/-- On an accepted video with at least two keyframes, the interpolation loop
covers the frames from the first to the last keyframe index exclusive, so the
track holds frame_count - 1 centers. -/
theorem center_track_full_length (v : Video) (ndp : ℕ) (boxes : List DetectEntry)
    (hk : 2 ≤ min ndp v.frame_count)
    (hlen : boxes.length = (face_detect_frame_idxs v.frame_count ndp).length)
    (hacc : accept boxes = true) :
    (center_track boxes (face_detect_frame_idxs v.frame_count ndp)).length
      = v.frame_count - 1 := by
  have hn : 2 ≤ v.frame_count := by omega
  have hlen2 : (face_detect_frame_idxs v.frame_count ndp).length = min ndp v.frame_count :=
    face_idxs_length _ _
  have hpw : (face_detect_frame_idxs v.frame_count ndp).Pairwise (· ≤ ·) :=
    (face_idxs_pairwise hk).imp le_of_lt
  have hzero : (face_detect_frame_idxs v.frame_count ndp).getD 0 0 = 0 :=
    face_idxs_getD_zero hk
  have hlast : (face_detect_frame_idxs v.frame_count ndp).getLastD 0
      = (v.frame_count : ℤ) - 1 := face_idxs_getLastD hk
  rcases hi : face_detect_frame_idxs v.frame_count ndp with _ | ⟨a, l⟩
  · rw [hi] at hlen2
    simp at hlen2
    omega
  · rw [hi] at hlen hpw hzero hlast
    rcases boxes with _ | ⟨b0, bs⟩
    · simp at hlen
    · have ha : a = 0 := by simpa using hzero
      rw [center_track_length_aux bs b0 l a (by simpa using hlen) hpw, hlast, ha]
      omega

theorem pairwise_head_le_getD (a : ℤ) (l : List ℤ) (h : (a :: l).Pairwise (· < ·))
    (j : ℕ) (hj : j < l.length + 1) : a ≤ (a :: l).getD j 0 := by
  cases j with
  | zero => simp
  | succ j =>
    have hj2 : j < l.length := by omega
    have hmem : l.getD j 0 ∈ l := by
      rw [List.getD_eq_getElem _ 0 hj2]
      exact List.getElem_mem _
    have := (List.pairwise_cons.mp h).1 _ hmem
    rw [List.getD_cons_succ]
    omega

theorem center_track_getElem_aux (bs : List DetectEntry) :
    ∀ (b0 : DetectEntry) (l : List ℤ) (a : ℤ),
      bs.length = l.length → (a :: l).Pairwise (· < ·) →
      ∀ j, j < bs.length →
        (center_track (b0 :: bs) (a :: l))[((a :: l).getD j 0 - a).toNat]?
          = some (get_center (box0 ((b0 :: bs).getD j none))) := by
  induction bs with
  | nil =>
    intro b0 l a hlen hpw j hj
    simp at hj
  | cons b1 bs ih =>
    intro b0 l a hlen hpw j hj
    cases l with
    | nil => simp at hlen
    | cons i1 l =>
      rw [center_track_cons]
      have hai : a < i1 := (List.pairwise_cons.mp hpw).1 i1 (by simp)
      have hseg : (interpolate_coords (get_center (box0 b0)) (get_center (box0 b1))
          (i1 - a)).length = (i1 - a).toNat := interpolate_coords_length _ _ _
      cases j with
      | zero =>
        rw [List.getD_cons_zero, List.getD_cons_zero]
        have hz : ((a - a).toNat) = 0 := by omega
        rw [hz]
        rw [List.getElem?_append_left (by rw [hseg]; omega)]
        unfold interpolate_coords
        rw [List.getElem?_map, List.getElem?_range (by omega)]
        simp only [Option.map_some']
        unfold np_interp
        norm_num [pyInt_intCast]
      | succ j =>
        rw [List.getD_cons_succ, List.getD_cons_succ]
        have hlen2 : bs.length = l.length := by simpa using hlen
        have hpw1 : (i1 :: l).Pairwise (· < ·) := (List.pairwise_cons.mp hpw).2
        have hjlt : j < bs.length := by
          rw [List.length_cons] at hj
          omega
        have hx : i1 ≤ (i1 :: l).getD j 0 := by
          apply pairwise_head_le_getD i1 l hpw1 j
          omega
        rw [List.getElem?_append_right (by rw [hseg]; omega)]
        rw [hseg]
        have harith : ((i1 :: l).getD j 0 - a).toNat - (i1 - a).toNat
            = ((i1 :: l).getD j 0 - i1).toNat := by omega
        rw [harith]
        exact ih b1 l i1 hlen2 hpw1 j hjlt

theorem py_slice_bound_toNat {len : ℕ} {i : ℤ} (h0 : 0 ≤ i) (hle : i ≤ (len : ℤ)) :
    py_slice_bound len i = i.toNat := by
  unfold py_slice_bound
  rw [if_neg (by omega)]
  omega

end Denoise

namespace Denoise


/-- C1 (amended): for an accepted video with k = min(num_detect_points, n) ≥ 2
keyframes, each yielding exactly one box, the interpolated center track has
n - 1 entries — one per frame index in [0, n-1) — not n: the frame at the
final keyframe index n-1 receives no center. -/
theorem track_length_eq_frames_sub_one (v : Video) (ndp : ℕ) (boxes : List DetectEntry)
    (hk : 2 ≤ min ndp v.frame_count)
    (hlen : boxes.length = (face_detect_frame_idxs v.frame_count ndp).length)
    (hacc : accept boxes = true) :
    (center_track boxes (face_detect_frame_idxs v.frame_count ndp)).length
      = v.frame_count - 1 :=
  center_track_full_length v ndp boxes hk hlen hacc

/-- C1 counterexample: a 5-frame video with 2 keyframes, one box at each
keyframe; the track has 4 entries, not 5 as the claim states. -/
theorem track_length_counterexample :
    2 ≤ min 2 5 ∧
    ([some [boxW], some [boxW]] : List DetectEntry).length
      = (face_detect_frame_idxs 5 2).length ∧
    accept [some [boxW], some [boxW]] = true ∧
    (center_track [some [boxW], some [boxW]] (face_detect_frame_idxs 5 2)).length = 4 ∧
    ¬ (center_track [some [boxW], some [boxW]] (face_detect_frame_idxs 5 2)).length = 5 := by
  have he : center_track [some [boxW], some [boxW]] (face_detect_frame_idxs 5 2)
      = [(1, 1), (1, 1), (1, 1), (1, 1)] := by
    norm_num [face_detect_frame_idxs, linspace_int, List.range_succ, pyInt, center_track,
      consec_pairs, interpolate_coords, np_interp, boxW, box0, get_center, pyFloorDiv,
      Int.toNat, List.flatMap_cons]
  refine ⟨by decide, ?_, by decide, by rw [he]; decide, by rw [he]; decide⟩
  rw [face_idxs_length]
  decide

/-- C1 witness: a 3-frame video with 2 accepted keyframes has a 2-entry track. -/
theorem track_length_eq_frames_sub_one_witness :
    (center_track [some [boxW], some [boxW]] (face_detect_frame_idxs 3 2)).length = 3 - 1 :=
  track_length_eq_frames_sub_one videoW 2 [some [boxW], some [boxW]] (by decide)
    (by rw [face_idxs_length]; decide) (by decide)


/-- C2 (amended): the track entry at each sampled keyframe index except the
last equals that keyframe's detected center. -/
theorem track_matches_centers_at_keyframes (v : Video) (ndp : ℕ) (boxes : List DetectEntry)
    (hk : 2 ≤ min ndp v.frame_count)
    (hlen : boxes.length = (face_detect_frame_idxs v.frame_count ndp).length)
    (hacc : accept boxes = true)
    (j : ℕ) (hj : j + 1 < (face_detect_frame_idxs v.frame_count ndp).length) :
    (center_track boxes
        (face_detect_frame_idxs v.frame_count ndp))[((face_detect_frame_idxs
          v.frame_count ndp).getD j 0).toNat]?
      = some (get_center (box0 (boxes.getD j none))) := by
  have hzero := face_idxs_getD_zero hk
  have hpw := face_idxs_pairwise hk
  rcases hi : face_detect_frame_idxs v.frame_count ndp with _ | ⟨a, l⟩
  · rw [hi] at hj
    simp at hj
  · rw [hi] at hj hlen hzero hpw
    rcases boxes with _ | ⟨b0, bs⟩
    · simp at hlen
    · have ha : a = 0 := by simpa using hzero
      subst ha
      have hjlt : j < bs.length := by
        rw [List.length_cons, List.length_cons] at hlen
        rw [List.length_cons] at hj
        omega
      have haux := center_track_getElem_aux bs b0 l 0 (by
        rw [List.length_cons, List.length_cons] at hlen
        omega) hpw j hjlt
      simpa using haux

/-- C2 counterexample: in a 5-frame video with keyframes 0 and 4, the track
has no entry at the last sampled keyframe index 4, so the entry there cannot
equal the detected center (1, 1). -/
theorem last_keyframe_center_missing :
    (face_detect_frame_idxs 5 2).getD 1 0 = 4 ∧
    get_center (box0 (([some [boxW], some [boxW]] : List DetectEntry).getD 1 none)) = (1, 1) ∧
    (center_track [some [boxW], some [boxW]] (face_detect_frame_idxs 5 2))[(4 : ℕ)]? = none := by
  have he : center_track [some [boxW], some [boxW]] (face_detect_frame_idxs 5 2)
      = [(1, 1), (1, 1), (1, 1), (1, 1)] := by
    norm_num [face_detect_frame_idxs, linspace_int, List.range_succ, pyInt, center_track,
      consec_pairs, interpolate_coords, np_interp, boxW, box0, get_center, pyFloorDiv,
      Int.toNat, List.flatMap_cons]
  refine ⟨?_, ?_, by rw [he]; decide⟩
  · norm_num [face_detect_frame_idxs, linspace_int, List.range_succ, pyInt]
  · norm_num [boxW, box0, get_center, pyFloorDiv]

/-- C2 witness: at the first keyframe of a 3-frame video the track entry is
the detected center. -/
theorem track_matches_centers_at_keyframes_witness :
    (center_track [some [boxW], some [boxW]]
        (face_detect_frame_idxs 3 2))[((face_detect_frame_idxs 3 2).getD 0 0).toNat]?
      = some (get_center (box0 (([some [boxW], some [boxW]] : List DetectEntry).getD 0 none))) :=
  track_matches_centers_at_keyframes videoW 2 [some [boxW], some [boxW]] (by decide)
    (by rw [face_idxs_length]; decide) (by decide) 0 (by rw [face_idxs_length]; decide)


/-- C3: for a center inside the frame and a crop size of at least 1 x 1, the
pad-and-slice window of cut_face_from_video lines 129-139 stays inside the
padded buffer (both slice starts are nonnegative, so no negative-index
wraparound, and both stops are at most the padded extents) and the result
has exactly height x width x channels entries. -/
theorem pad_crop_safe (frame : Arr3) (cy cx h w : ℤ)
    (hcy0 : 0 ≤ cy) (hcyH : cy < (frame.d0 : ℤ))
    (hcx0 : 0 ≤ cx) (hcxW : cx < (frame.d1 : ℤ))
    (hh : 1 ≤ h) (hw : 1 ≤ w) :
    (0 ≤ h + (cy - Int.fdiv h 2) ∧
      h + (cy - Int.fdiv h 2 + h) ≤ (frame.d0 : ℤ) + 2 * h ∧
      0 ≤ w + (cx - Int.fdiv w 2) ∧
      w + (cx - Int.fdiv w 2 + w) ≤ (frame.d1 : ℤ) + 2 * w) ∧
    ∃ out,
      pad_crop frame (cy - Int.fdiv h 2) (cy - Int.fdiv h 2 + h)
          (cx - Int.fdiv w 2) (cx - Int.fdiv w 2 + w) = some out ∧
      (out.d0 : ℤ) = h ∧ (out.d1 : ℤ) = w ∧ out.d2 = frame.d2 := by
  rw [Int.fdiv_eq_ediv h (show (0 : ℤ) ≤ 2 by omega),
    Int.fdiv_eq_ediv w (show (0 : ℤ) ≤ 2 by omega)]
  refine ⟨by omega, ?_⟩
  unfold pad_crop np_slice np_pad
  rw [if_neg (by omega)]
  have e1 : py_slice_bound (frame.d0 + 2 * (cy - h / 2 + h - (cy - h / 2)).toNat)
      (cy - h / 2 + h - (cy - h / 2) + (cy - h / 2))
      = (cy - h / 2 + h - (cy - h / 2) + (cy - h / 2)).toNat :=
    py_slice_bound_toNat (by omega) (by omega)
  have e2 : py_slice_bound (frame.d0 + 2 * (cy - h / 2 + h - (cy - h / 2)).toNat)
      (cy - h / 2 + h - (cy - h / 2) + (cy - h / 2 + h))
      = (cy - h / 2 + h - (cy - h / 2) + (cy - h / 2 + h)).toNat :=
    py_slice_bound_toNat (by omega) (by omega)
  have e3 : py_slice_bound (frame.d1 + 2 * (cx - w / 2 + w - (cx - w / 2)).toNat)
      (cx - w / 2 + w - (cx - w / 2) + (cx - w / 2))
      = (cx - w / 2 + w - (cx - w / 2) + (cx - w / 2)).toNat :=
    py_slice_bound_toNat (by omega) (by omega)
  have e4 : py_slice_bound (frame.d1 + 2 * (cx - w / 2 + w - (cx - w / 2)).toNat)
      (cx - w / 2 + w - (cx - w / 2) + (cx - w / 2 + w))
      = (cx - w / 2 + w - (cx - w / 2) + (cx - w / 2 + w)).toNat :=
    py_slice_bound_toNat (by omega) (by omega)
  refine ⟨_, rfl, ?_, ?_, rfl⟩ <;> simp only [e1, e2, e3, e4] <;> omega

/-- C3 witness: a 1 x 1 x 3 frame, center (0, 0), crop size 1 x 1. -/
theorem pad_crop_safe_witness :
    (0 ≤ 1 + ((0 : ℤ) - Int.fdiv 1 2) ∧
      1 + ((0 : ℤ) - Int.fdiv 1 2 + 1) ≤ (frameW.d0 : ℤ) + 2 * 1 ∧
      0 ≤ 1 + ((0 : ℤ) - Int.fdiv 1 2) ∧
      1 + ((0 : ℤ) - Int.fdiv 1 2 + 1) ≤ (frameW.d1 : ℤ) + 2 * 1) ∧
    ∃ out,
      pad_crop frameW ((0 : ℤ) - Int.fdiv 1 2) ((0 : ℤ) - Int.fdiv 1 2 + 1)
          ((0 : ℤ) - Int.fdiv 1 2) ((0 : ℤ) - Int.fdiv 1 2 + 1) = some out ∧
      (out.d0 : ℤ) = 1 ∧ (out.d1 : ℤ) = 1 ∧ out.d2 = frameW.d2 :=
  pad_crop_safe frameW 0 0 1 1 (by decide) (by decide) (by decide) (by decide)
    (by decide) (by decide)

/-- C4: a detection result with zero or several boxes at some keyframe makes
cut_face_from_video return 1 with no written video, and the crop task body
then leaves the filesystem untouched. -/
theorem rejection_no_write_fs_unchanged (v : Video) (ndp : ℕ) (boxes : List DetectEntry)
    (vf af cd : String) (fs : FS)
    (h : ∃ b ∈ boxes, ambiguous b = true) :
    (cut_face_from_video v ndp boxes).return_code = 1 ∧
    (cut_face_from_video v ndp boxes).written = none ∧
    crop_video (cut_face_from_video v ndp boxes) vf af cd fs = fs := by
  have hacc : accept boxes = false := by
    obtain ⟨b, hb, hab⟩ := h
    unfold accept
    rw [List.all_eq_false]
    exact ⟨b, hb, by simp [hab]⟩
  unfold cut_face_from_video
  rw [hacc]
  rw [if_neg (by simp)]
  exact ⟨rfl, rfl, rfl⟩

/-- C4 witness: one keyframe with no detection. -/
theorem rejection_no_write_fs_unchanged_witness :
    (cut_face_from_video videoW 2 [none, some [boxW]]).return_code = 1 ∧
    (cut_face_from_video videoW 2 [none, some [boxW]]).written = none ∧
    crop_video (cut_face_from_video videoW 2 [none, some [boxW]]) "v.mp4" "a.aac" "out"
      fs_empty = fs_empty :=
  rejection_no_write_fs_unchanged videoW 2 [none, some [boxW]] "v.mp4" "a.aac" "out" fs_empty
    ⟨none, by simp, rfl⟩


/-- C7 (amended): the sampled indices are min(num_detect_points, n) evenly
spaced values from 0 to n-1 inclusive, each TRUNCATED toward zero (here the
floor, all values being nonnegative) rather than rounded to nearest; they
are strictly increasing, the first is 0 and the last is n-1. -/
theorem detect_indices_floor_spaced (n ndp : ℕ) (h2 : 2 ≤ min ndp n) :
    (face_detect_frame_idxs n ndp).length = min ndp n ∧
    (face_detect_frame_idxs n ndp).getD 0 0 = 0 ∧
    (face_detect_frame_idxs n ndp).getLastD 0 = (n : ℤ) - 1 ∧
    (∀ i, i < min ndp n →
      (face_detect_frame_idxs n ndp).getD i 0
        = ⌊(i : ℚ) * (((n : ℤ) - 1 : ℤ) : ℚ) / (((min ndp n : ℕ) : ℚ) - 1)⌋) ∧
    (face_detect_frame_idxs n ndp).Pairwise (· < ·) := by
  refine ⟨face_idxs_length n ndp, face_idxs_getD_zero h2, face_idxs_getLastD h2, ?_,
    face_idxs_pairwise h2⟩
  intro i hi
  unfold face_detect_frame_idxs
  exact linspace_int_getD (show (0 : ℤ) ≤ (n : ℤ) - 1 by omega) h2 hi

/-- C7 counterexample: for n = 11 frames and 4 detection points the code's
truncation gives index 6 where rounding to nearest would give 7. -/
theorem linspace_rounding_counterexample :
    face_detect_frame_idxs 11 4 = [0, 3, 6, 10] ∧
    face_detect_frame_idxs_rounded 11 4 = [0, 3, 7, 10] ∧
    ¬ face_detect_frame_idxs 11 4 = face_detect_frame_idxs_rounded 11 4 := by
  have h1 : face_detect_frame_idxs 11 4 = [0, 3, 6, 10] := by
    norm_num [face_detect_frame_idxs, linspace_int, List.range_succ, pyInt]
  have h2 : face_detect_frame_idxs_rounded 11 4 = [0, 3, 7, 10] := by
    norm_num [face_detect_frame_idxs_rounded, List.range_succ]
  refine ⟨h1, h2, ?_⟩
  rw [h1, h2]
  decide

/-- C7 witness: the amended statement at n = 11, num_detect_points = 4. -/
theorem detect_indices_floor_spaced_witness :
    (face_detect_frame_idxs 11 4).length = min 4 11 ∧
    (face_detect_frame_idxs 11 4).getD 0 0 = 0 ∧
    (face_detect_frame_idxs 11 4).getLastD 0 = ((11 : ℕ) : ℤ) - 1 ∧
    (∀ i, i < min 4 11 →
      (face_detect_frame_idxs 11 4).getD i 0
        = ⌊(i : ℚ) * ((((11 : ℕ) : ℤ) - 1 : ℤ) : ℚ) / (((min 4 11 : ℕ) : ℚ) - 1)⌋) ∧
    (face_detect_frame_idxs 11 4).Pairwise (· < ·) :=
  detect_indices_floor_spaced 11 4 (by decide)


/-- C9: on an accepted video the (height, width) used by every iteration of
the cropping loop is the one computed once from the first sampled keyframe's
box, whatever the other keyframes' boxes are; the written video's frame
shape is that same size. -/
theorem crop_size_from_first_box (v : Video) (ndp : ℕ) (boxes : List DetectEntry)
    (hacc : accept boxes = true) :
    (∀ s ∈ (cut_face_from_video v ndp boxes).sizes,
        s = get_height_width (box0 (boxes.headD none))) ∧
    (∀ wr, (cut_face_from_video v ndp boxes).written = some wr →
      wr.height = (get_height_width (box0 (boxes.headD none))).1.toNat ∧
      wr.width = (get_height_width (box0 (boxes.headD none))).2.toNat) := by
  unfold cut_face_from_video
  rw [hacc, if_pos rfl]
  constructor
  · intro s hs
    simp only [List.mem_map] at hs
    obtain ⟨i, _, hsi⟩ := hs
    exact hsi.symm
  · intro wr hw
    simp only [Option.some.injEq] at hw
    rw [← hw]
    exact ⟨rfl, rfl⟩

/-- C9 witness at a concrete accepted video. -/
theorem crop_size_from_first_box_witness :
    (∀ s ∈ (cut_face_from_video videoW 2 [some [boxW], some [boxW]]).sizes,
        s = get_height_width (box0 (([some [boxW], some [boxW]] : List DetectEntry).headD none))) ∧
    (∀ wr, (cut_face_from_video videoW 2 [some [boxW], some [boxW]]).written = some wr →
      wr.height = (get_height_width
        (box0 (([some [boxW], some [boxW]] : List DetectEntry).headD none))).1.toNat ∧
      wr.width = (get_height_width
        (box0 (([some [boxW], some [boxW]] : List DetectEntry).headD none))).2.toNat) :=
  crop_size_from_first_box videoW 2 [some [boxW], some [boxW]] (by decide)

/-- C10: on an accepted video with n frames and k ≥ 2 keyframes the written
cropped video has exactly n frames, and its final frame is entirely zero:
the loop over zip(videodata, center_coords_interp) stops after the track's
n - 1 entries, so frame n - 1 keeps the zero initialization. -/
theorem final_frame_zero (v : Video) (ndp : ℕ) (boxes : List DetectEntry)
    (hk : 2 ≤ min ndp v.frame_count)
    (hlen : boxes.length = (face_detect_frame_idxs v.frame_count ndp).length)
    (hacc : accept boxes = true) :
    ∃ wr, (cut_face_from_video v ndp boxes).written = some wr ∧
      wr.frame_count = v.frame_count ∧
      ∀ r c ch, wr.px (v.frame_count - 1) r c ch = 0 := by
  have htr := center_track_full_length v ndp boxes hk hlen hacc
  have hnone :
      (center_track boxes (face_detect_frame_idxs v.frame_count ndp))[v.frame_count - 1]?
        = none := by
    rw [List.getElem?_eq_none_iff, htr]
  unfold cut_face_from_video
  rw [hacc, if_pos rfl]
  refine ⟨_, rfl, rfl, ?_⟩
  intro r c ch
  simp only [hnone]

/-- C10 witness at a 3-frame accepted video. -/
theorem final_frame_zero_witness :
    ∃ wr, (cut_face_from_video videoW 2 [some [boxW], some [boxW]]).written = some wr ∧
      wr.frame_count = videoW.frame_count ∧
      ∀ r c ch, wr.px (videoW.frame_count - 1) r c ch = 0 :=
  final_frame_zero videoW 2 [some [boxW], some [boxW]] (by decide)
    (by rw [face_idxs_length]; decide) (by decide)


/-- C6: the existence guard of download_partial_video_from_youtube fires
before any download action when either target file exists, raising
FileExistsError and leaving the filesystem as it was; consequently a second
fetch of the same base name into the same directory fails fast with
FileExistsError, whatever the network does on the retry. -/
theorem fetch_idempotency_guard (td base : String) (net net2 : Net) (fs : FS) :
    (((fs (path_join td (base ++ ".mp4"))).isSome
        ∨ (fs (path_join td (base ++ ".aac"))).isSome) →
      download_partial_video_from_youtube td base net fs
        = (Except.error PyExc.fileExists, fs, [])) ∧
    (∀ vf af,
      (download_partial_video_from_youtube td base net fs).1 = Except.ok (vf, af) →
      download_partial_video_from_youtube td base net2
          (download_partial_video_from_youtube td base net fs).2.1
        = (Except.error PyExc.fileExists,
           (download_partial_video_from_youtube td base net fs).2.1, [])) := by
  constructor
  · intro h
    unfold download_partial_video_from_youtube
    rcases h with h | h
    · rw [if_pos h]
    · by_cases h1 : (fs (path_join td (base ++ ".mp4"))).isSome
      · rw [if_pos h1]
      · rw [if_neg h1, if_pos h]
  · intro vf af hok
    unfold download_partial_video_from_youtube at hok ⊢
    by_cases h1 : (fs (path_join td (base ++ ".mp4"))).isSome
    · rw [if_pos h1] at hok
      exact absurd hok (by simp)
    rw [if_neg h1] at hok ⊢
    by_cases h2 : (fs (path_join td (base ++ ".aac"))).isSome
    · rw [if_pos h2] at hok
      exact absurd hok (by simp)
    rw [if_neg h2] at hok ⊢
    cases hurl : net.url_info with
    | none =>
      rw [hurl] at hok
      exact absurd hok (by simp)
    | some u =>
      rw [hurl] at hok
      cases hfv : net.ffmpeg_video with
      | timeout =>
        rw [hfv] at hok
        exact absurd hok (by simp)
      | fail =>
        rw [hfv] at hok
        exact absurd hok (by simp)
      | ok =>
        rw [hfv] at hok
        cases hfa : net.ffmpeg_audio with
        | timeout =>
          rw [hfa] at hok
          exact absurd hok (by simp)
        | fail =>
          rw [hfa] at hok
          exact absurd hok (by simp)
        | ok =>
          rw [hfa] at hok
          have hset : ((fs_set (fs_set fs (path_join td (base ++ ".mp4")) net.video_bytes)
              (path_join td (base ++ ".aac")) net.audio_bytes)
              (path_join td (base ++ ".mp4"))).isSome := by
            unfold fs_set
            split <;> simp
          rw [if_pos hset]

/-- C6 witness: after a successful fetch into an empty filesystem, fetching
the same clip again fails with FileExistsError and changes nothing. -/
theorem fetch_idempotency_guard_witness :
    download_partial_video_from_youtube "d" "b" netOk
        (download_partial_video_from_youtube "d" "b" netOk fs_empty).2.1
      = (Except.error PyExc.fileExists,
         (download_partial_video_from_youtube "d" "b" netOk fs_empty).2.1, []) :=
  (fetch_idempotency_guard "d" "b" netOk netOk fs_empty).2
    (path_join "d" ("b" ++ ".mp4")) (path_join "d" ("b" ++ ".aac")) rfl

/-- C5: the fetch task body enqueues a crop task (at priority 2, strictly
above the producer's fetch priority 1) exactly when its download returned
successfully; on every exception path nothing is enqueued. -/
theorem crop_enqueued_iff_fetch_success (dd cd yid : String) (net : Net) (fs : FS) :
    ((download_video dd cd yid net fs).1.enqueued.isSome = true ↔
      ∃ vf af, (download_partial_video_from_youtube dd yid net fs).1
        = Except.ok (vf, af)) ∧
    (∀ t, (download_video dd cd yid net fs).1.enqueued = some t →
      t.priority = 2 ∧ fetch_task_priority < t.priority) := by
  rcases hdp : download_partial_video_from_youtube dd yid net fs with ⟨res, fs1, acts⟩
  cases res with
  | ok p =>
    rcases p with ⟨vf, af⟩
    have henq : (download_video dd cd yid net fs).1.enqueued
        = some { video_file := vf, audio_file := af, cropped_dir := cd, priority := 2 } := by
      unfold download_video
      rw [hdp]
    constructor
    · rw [henq]
      constructor
      · intro _
        exact ⟨vf, af, rfl⟩
      · intro _
        simp
    · intro t ht
      rw [henq] at ht
      simp only [Option.some.injEq] at ht
      rw [← ht]
      refine ⟨rfl, ?_⟩
      show fetch_task_priority < 2
      decide
  | error e =>
    have henq : (download_video dd cd yid net fs).1.enqueued = none := by
      unfold download_video
      rw [hdp]
      by_cases hc : caught_at_task_boundary e <;> simp [hc]
    constructor
    · rw [henq]
      constructor
      · intro hfalse
        exact absurd hfalse (by simp)
      · rintro ⟨vf, af, hok⟩
        exact absurd hok (by simp)
    · intro t ht
      rw [henq] at ht
      exact absurd ht (by simp)

/-- C5 witness: with a fully successful network the task enqueues the crop
task, and its priority 2 is strictly above the fetch priority. -/
theorem crop_enqueued_iff_fetch_success_witness :
    (download_video "d" "c" "b" netOk fs_empty).1.enqueued.isSome = true ∧
    fetch_task_priority < 2 :=
  ⟨(crop_enqueued_iff_fetch_success "d" "c" "b" netOk fs_empty).1.mpr
    ⟨path_join "d" ("b" ++ ".mp4"), path_join "d" ("b" ++ ".aac"), rfl⟩,
   by decide⟩

/-- C8: contrary to the propagation policy, an extraction failure is not
swallowed: the fetcher raises FileNotFoundError for a nonzero ffmpeg exit,
the task's except clauses match only DownloadError and FileExistsError
(UnexpectedURLInfo and FailedDownload are undefined in video_download.py),
and the exception escapes to the broker. -/
theorem extraction_failure_propagates :
    (download_partial_video_from_youtube "dl" "clip" netExtractionFail fs_empty).1
      = Except.error (taxonomy_exc FetchErrKind.extractionFailed) ∧
    caught_at_task_boundary (taxonomy_exc FetchErrKind.extractionFailed) = false ∧
    (download_video "dl" "cr" "clip" netExtractionFail fs_empty).1.uncaught
      = some PyExc.fileNotFound :=
  ⟨rfl, rfl, rfl⟩

end Denoise
